import Mathlib

/-!
Performance data of go-monitoringplugin.

A shallow embedding of `performance_data.go`: the `PerformanceDataPoint`
record, its `validate` and `outputString` methods, the builder setters and
`PerformanceData.add`, followed by the properties proved about them.

Modelling decisions:

* `float64` is the IEEE 754 binary64 bit pattern (sign, biased exponent,
  fraction); `<` and `>` are the IEEE comparisons, false as soon as one
  operand is a NaN, with `-0` and `+0` comparing equal.
* Go strings are Lean strings; `+` is `++`.
* `fmt.Sprintf("%g", x)` belongs to Go's standard library. It is a parameter
  `fmt : Float64 → String` of `outputString`.
* A Go `error` built by `errors.New` / `errors.Wrap` is a value of `GoError`;
  a `nil` error is `none`.
* The Go map `PerformanceData` is a finite map from strings to points; the
  method `add`, which mutates its receiver, returns the error together with
  the map after the call.
-/

namespace MonitoringPlugin

/-! ## float64 -/

/-- An IEEE 754 binary64 value: sign bit, 11-bit biased exponent, 52-bit fraction. -/
structure Float64 where
  sign : Bool
  exp : Fin 2048
  frac : Fin (2 ^ 52)
  deriving DecidableEq

namespace Float64

/-- A NaN has all exponent bits set and a non-zero fraction. -/
def isNaN (x : Float64) : Bool :=
  x.exp.val == 2047 && x.frac.val != 0

/-- Rank of the magnitude: the 63 bits below the sign bit read as a natural
number. Binary64 is laid out so that, among non-NaN values, a larger magnitude
has a larger rank; the infinities (exponent 2047, fraction 0) rank above every
finite value and both zeros have rank 0. -/
def mag (x : Float64) : Nat :=
  x.exp.val * 2 ^ 52 + x.frac.val

/-- Position of a non-NaN value in the order of the extended real line. -/
def toInt (x : Float64) : Int :=
  if x.sign then -(x.mag : Int) else (x.mag : Int)

/-- Go's `x < y` on float64. -/
def lt (x y : Float64) : Bool :=
  !x.isNaN && !y.isNaN && decide (x.toInt < y.toInt)

/-- Go's `x > y` on float64. -/
def gt (x y : Float64) : Bool :=
  lt y x

/-- Go's `x <= y` on float64. -/
def le (x y : Float64) : Bool :=
  !x.isNaN && !y.isNaN && decide (x.toInt ≤ y.toInt)

/-- Go's `x >= y` on float64. -/
def ge (x y : Float64) : Bool :=
  le y x

/-- Go's `x == y` on float64. -/
def eq (x y : Float64) : Bool :=
  !x.isNaN && !y.isNaN && decide (x.toInt = y.toInt)

/-- The natural number a float stands for, when it is one (and not `-0`).
With `m = 2^52 + frac` the value of a normal float is `m * 2^(exp - 1075)`. -/
def toNat? (x : Float64) : Option Nat :=
  if x.sign then none
  else if x.exp.val = 0 then (if x.frac.val = 0 then some 0 else none)
  else if x.exp.val = 2047 then none
  else if 1075 ≤ x.exp.val then some ((2 ^ 52 + x.frac.val) * 2 ^ (x.exp.val - 1075))
  else if x.exp.val < 1023 then none
  else if (2 ^ 52 + x.frac.val) % 2 ^ (1075 - x.exp.val) = 0 then
    some ((2 ^ 52 + x.frac.val) / 2 ^ (1075 - x.exp.val))
  else none

/-- The float `0`. -/
def zero : Float64 := ⟨false, ⟨0, by decide⟩, ⟨0, by decide⟩⟩
/-- The float `5` (1.25 * 2^2). -/
def five : Float64 := ⟨false, ⟨1025, by decide⟩, ⟨2 ^ 50, by decide⟩⟩
/-- The float `10` (1.25 * 2^3). -/
def ten : Float64 := ⟨false, ⟨1026, by decide⟩, ⟨2 ^ 50, by decide⟩⟩
/-- The float `40` (1.25 * 2^5). -/
def forty : Float64 := ⟨false, ⟨1028, by decide⟩, ⟨2 ^ 50, by decide⟩⟩
/-- The float `50` (1.5625 * 2^5). -/
def fifty : Float64 := ⟨false, ⟨1028, by decide⟩, ⟨9 * 2 ^ 48, by decide⟩⟩
/-- The float `60` (1.875 * 2^5). -/
def sixty : Float64 := ⟨false, ⟨1028, by decide⟩, ⟨7 * 2 ^ 49, by decide⟩⟩
/-- A quiet NaN. -/
def nan : Float64 := ⟨false, ⟨2047, by decide⟩, ⟨2 ^ 51, by decide⟩⟩

end Float64

/-- A formatter that agrees with Go's `%g` on the natural numbers below `10^6`,
which `%g` prints as plain decimal digits. Outside that fragment it is not a
model of `%g` and returns `"?"`. -/
def fmtSmallNat (x : Float64) : String :=
  match x.toNat? with
  | some n => if n < 10 ^ 6 then Nat.repr n else "?"
  | none => "?"

/-! ## Errors -/

/-- An error value of `github.com/pkg/errors`: `errors.New msg` or `errors.Wrap cause msg`. -/
inductive GoError where
  | new (msg : String)
  | wrap (cause : GoError) (msg : String)
  deriving DecidableEq

/-- The error `EmptyName`, with the message of the source. -/
def errEmptyName : GoError := .new "data point label cannot be an empty string"
/-- The error `InvalidNameChars`, with the message of the source. -/
def errInvalidNameChars : GoError := .new "label can not contain the equal sign or single quote (')"
/-- The error `InvalidUnitChars`, with the message of the source. -/
def errInvalidUnitChars : GoError := .new "unit can not contain numbers, semicolon or quotes"
/-- The error `MinExceedsMax`, with the message of the source. -/
def errMinExceedsMax : GoError := .new "min cannot be larger than max"
/-- The error `ValueBelowMin`, with the message of the source. -/
def errValueBelowMin : GoError := .new "value cannot be smaller than min"
/-- The error `ValueAboveMax`, with the message of the source. -/
def errValueAboveMax : GoError := .new "value cannot be larger than max"
/-- The error `DuplicateMetric`, with the message of the source. -/
def errDuplicateMetric : GoError := .new "a performance data point with this label does already exist"
/-- The context `add` wraps a validation error in. -/
def notValidContext : String := "given performance data point is not valid"

/-! ## Regular expressions of the form `([...])` -/

/-- A bracket expression: a list of inclusive ranges `lo-hi`; a single
character `c` of the bracket is the range `c-c`. -/
structure CharClass where
  ranges : List (Char × Char)

/-- Whether a character belongs to the bracket expression. -/
def CharClass.mem (cc : CharClass) (c : Char) : Bool :=
  cc.ranges.any fun r => decide (r.1 ≤ c) && decide (c ≤ r.2)

/-- The call `regexp.MatchString` for a pattern `([...])`: the pattern is not anchored,
so it matches when some character of the string is in the bracket. -/
def matchString (cc : CharClass) (s : String) : Bool :=
  s.data.any cc.mem

/-- The single quote. -/
def squote : Char := Char.ofNat 39
/-- The double quote. -/
def dquote : Char := Char.ofNat 34

/-- The pattern `([='])`. -/
def labelPattern : CharClass := ⟨[('=', '='), (squote, squote)]⟩
/-- The pattern `([0-9;'"])`. -/
def unitPattern : CharClass := ⟨[('0', '9'), (';', ';'), (squote, squote), (dquote, dquote)]⟩

/-! ## PerformanceDataPoint -/

/-- The struct `PerformanceDataPoint`, fields in declaration order. -/
structure PerformanceDataPoint where
  label : String
  value : Float64
  unit : String
  warn : Float64
  crit : Float64
  min : Float64
  max : Float64
  labelTag : String
  hasWarn : Bool
  hasCrit : Bool
  hasMin : Bool
  hasMax : Bool
  deriving DecidableEq

/-- The method `validate`. Both patterns are constants that compile, so the
`err != nil` branches after `regexp.MatchString` are never taken. -/
def validate (p : PerformanceDataPoint) : Option GoError :=
  if p.label = "" then
    some errEmptyName
  else if matchString labelPattern p.label then
    some errInvalidNameChars
  else if matchString unitPattern p.unit then
    some errInvalidUnitChars
  else if (p.hasMin && p.hasMax) && Float64.gt p.min p.max then
    some errMinExceedsMax
  else if p.hasMin && Float64.lt p.value p.min then
    some errValueBelowMin
  else if p.hasMax && Float64.gt p.value p.max then
    some errValueAboveMax
  else
    none

/-- The constructor `NewPerformanceDataPoint`: the fields not listed in the composite literal
take Go's zero value. -/
def NewPerformanceDataPoint (label : String) (value : Float64) (unit : String) :
    PerformanceDataPoint :=
  { label := label, value := value, unit := unit, warn := Float64.zero, crit := Float64.zero,
    min := Float64.zero, max := Float64.zero, labelTag := "", hasWarn := false, hasCrit := false,
    hasMin := false, hasMax := false }

/-- The method `outputString`; `s` is the local variable `outputString`
and `fmt x` stands for `fmt.Sprintf("%g", x)`. -/
def outputString (fmt : Float64 → String) (p : PerformanceDataPoint) (jsonLabel : Bool) :
    String :=
  let s := ""
  let s :=
    if jsonLabel then
      let s := s ++ ("'\x7b\"metric\":\"" ++ p.label ++ "\"")
      let s := if p.labelTag ≠ "" then s ++ (",\"label\":\"" ++ p.labelTag ++ "\"") else s
      s ++ "\x7d'"
    else
      let s := s ++ ("'" ++ p.label)
      let s := if p.labelTag ≠ "" then s ++ ("_" ++ p.labelTag) else s
      s ++ "'"
  let s := s ++ ("=" ++ fmt p.value ++ p.unit ++ ";")
  let s := if p.hasWarn then s ++ fmt p.warn else s
  let s := s ++ ";"
  let s := if p.hasCrit then s ++ fmt p.crit else s
  let s := s ++ ";"
  let s := if p.hasMin then s ++ fmt p.min else s
  let s := s ++ ";"
  let s := if p.hasMax then s ++ fmt p.max else s
  s

/-- The method `SetMin`. -/
def SetMin (p : PerformanceDataPoint) (min : Float64) : PerformanceDataPoint :=
  { { p with hasMin := true } with min := min }

/-- The method `SetMax`. -/
def SetMax (p : PerformanceDataPoint) (max : Float64) : PerformanceDataPoint :=
  { { p with hasMax := true } with max := max }

/-- The method `SetWarn`. -/
def SetWarn (p : PerformanceDataPoint) (warn : Float64) : PerformanceDataPoint :=
  { { p with hasWarn := true } with warn := warn }

/-- The method `SetCrit`. -/
def SetCrit (p : PerformanceDataPoint) (crit : Float64) : PerformanceDataPoint :=
  { { p with hasCrit := true } with crit := crit }

/-- The method `SetLabelTag`. -/
def SetLabelTag (p : PerformanceDataPoint) (labelTag : String) : PerformanceDataPoint :=
  { p with labelTag := labelTag }

/-! ## PerformanceData -/

/-- The type `PerformanceData`, a Go `map[string]PerformanceDataPoint`: a
finite map with at most one point per key and no order among the entries. -/
abbrev PerformanceData := Finmap fun _ : String => PerformanceDataPoint

/-- The method `add`. The first component is the returned error, the second
the receiver map after the call; `(*p)[k] = *point` stores the value of the
point under `k`, replacing whatever `k` held. -/
def PerformanceData.add (m : PerformanceData) (point : PerformanceDataPoint) :
    Option GoError × PerformanceData :=
  match validate point with
  | some err => (some (GoError.wrap err notValidContext), m)
  | none =>
    if (m.lookup (point.label ++ point.labelTag)).isSome then
      (some errDuplicateMetric, m)
    else
      (none, m.insert (point.label ++ point.labelTag) point)

/-- Number of occurrences of a character in a string. -/
def countChar (c : Char) (s : String) : Nat :=
  s.data.count c

/-- The point of the tests: `metric`, value 10, unit `s`, warn 40, crit 50, min 0, max 60. -/
def testPoint : PerformanceDataPoint :=
  SetMax (SetMin (SetCrit (SetWarn (NewPerformanceDataPoint "metric" .ten "s") .forty) .fifty)
    .zero) .sixty

/-- The point `ab` with tag `c`. -/
def pointAbC : PerformanceDataPoint := SetLabelTag (NewPerformanceDataPoint "ab" .ten "") "c"
/-- The point `a` with tag `bc`. -/
def pointABc : PerformanceDataPoint := SetLabelTag (NewPerformanceDataPoint "a" .ten "") "bc"

/-- The map after a sequence of `add` calls on the empty map, whether the
calls succeed or fail. -/
def addAll (points : List PerformanceDataPoint) : PerformanceData :=
  points.foldl (fun m p => (m.add p).2) ∅

/-- The point `metric` with a NaN value and min 0. -/
def nanValuePoint : PerformanceDataPoint :=
  SetMin (NewPerformanceDataPoint "metric" .nan "") .zero

/-- The point `metric` with value 0, a NaN min and max 5. -/
def nanMinPoint : PerformanceDataPoint :=
  SetMax (SetMin (NewPerformanceDataPoint "metric" .zero "") .nan) .five

/-- The ten digit characters `0` to `9`. -/
def digits : List Char := ['0', '1', '2', '3', '4', '5', '6', '7', '8', '9']

/-! ## Auxiliary lemmas -/

theorem char_range_single (a c : Char) : (a ≤ c ∧ c ≤ a) ↔ c = a :=
  ⟨fun h => le_antisymm h.2 h.1, fun h => by subst h; exact ⟨le_refl _, le_refl _⟩⟩

theorem char_range_digits (c : Char) : ('0' ≤ c ∧ c ≤ '9') ↔ c ∈ digits := by
  constructor
  · rintro ⟨h0, h9⟩
    have h0n : 48 ≤ c.toNat := h0
    have h9n : c.toNat ≤ 57 := h9
    have hc : c = Char.ofNat c.toNat := (Char.ofNat_toNat c).symm
    rw [hc]
    generalize c.toNat = n at h0n h9n
    interval_cases n <;> decide
  · intro h
    simp only [digits, List.mem_cons, List.mem_singleton, List.not_mem_nil, or_false] at h
    rcases h with h | h | h | h | h | h | h | h | h | h <;> subst h <;> decide

theorem matchString_labelPattern (s : String) :
    matchString labelPattern s = true ↔ ('=' ∈ s.data ∨ squote ∈ s.data) := by
  simp only [matchString, labelPattern, CharClass.mem, List.any_eq_true, List.any_cons,
    List.any_nil, Bool.or_false, Bool.or_eq_true, Bool.and_eq_true, decide_eq_true_eq,
    char_range_single]
  constructor
  · rintro ⟨c, hc, h | h⟩
    · exact Or.inl (h ▸ hc)
    · exact Or.inr (h ▸ hc)
  · rintro (h | h)
    · exact ⟨_, h, Or.inl rfl⟩
    · exact ⟨_, h, Or.inr rfl⟩

theorem matchString_unitPattern (s : String) :
    matchString unitPattern s = true ↔
      ((∃ d ∈ digits, d ∈ s.data) ∨ ';' ∈ s.data ∨ squote ∈ s.data ∨ dquote ∈ s.data) := by
  simp only [matchString, unitPattern, CharClass.mem, List.any_eq_true, List.any_cons,
    List.any_nil, Bool.or_false, Bool.or_eq_true, Bool.and_eq_true, decide_eq_true_eq,
    char_range_single, char_range_digits]
  constructor
  · rintro ⟨c, hc, h | h | h | h⟩
    · exact Or.inl ⟨c, h, hc⟩
    · exact Or.inr (Or.inl (h ▸ hc))
    · exact Or.inr (Or.inr (Or.inl (h ▸ hc)))
    · exact Or.inr (Or.inr (Or.inr (h ▸ hc)))
  · rintro (⟨d, hd, h⟩ | h | h | h)
    · exact ⟨d, h, Or.inl hd⟩
    · exact ⟨_, h, Or.inr (Or.inl rfl)⟩
    · exact ⟨_, h, Or.inr (Or.inr (Or.inl rfl))⟩
    · exact ⟨_, h, Or.inr (Or.inr (Or.inr rfl))⟩

theorem toDigitsCore_ne_semicolon (fuel n : Nat) (acc : List Char)
    (hacc : ∀ c ∈ acc, c ≠ ';') : ∀ c ∈ Nat.toDigitsCore 10 fuel n acc, c ≠ ';' := by
  induction fuel generalizing n acc with
  | zero => simpa [Nat.toDigitsCore] using hacc
  | succ k ih =>
    have hd : Nat.digitChar (n % 10) ≠ ';' := by
      have hlt : n % 10 < 10 := Nat.mod_lt _ (by decide)
      generalize n % 10 = d at hlt
      interval_cases d <;> decide
    have hacc2 : ∀ c ∈ Nat.digitChar (n % 10) :: acc, c ≠ ';' := by
      intro c hc
      rcases List.mem_cons.mp hc with h | h
      · exact h ▸ hd
      · exact hacc c h
    unfold Nat.toDigitsCore
    by_cases h0 : n / 10 = 0
    · simpa [h0] using hacc2
    · simpa [h0] using ih (n / 10) _ hacc2

theorem fmtSmallNat_no_semicolon (x : Float64) : ';' ∉ (fmtSmallNat x).data := by
  have hq : ';' ∉ "?".data := by decide
  have hr : ∀ n : Nat, ';' ∉ (Nat.repr n).data := fun n h =>
    toDigitsCore_ne_semicolon (n + 1) n [] (fun c hc => by cases hc) ';' h rfl
  unfold fmtSmallNat
  cases x.toNat? with
  | none => exact hq
  | some n =>
    show ';' ∉ (if n < 10 ^ 6 then Nat.repr n else "?").data
    split
    · exact hr n
    · exact hq

theorem validate_unit_no_semicolon (p : PerformanceDataPoint) (hv : validate p = none) :
    ';' ∉ p.unit.data := by
  intro h
  have hm : matchString unitPattern p.unit = true :=
    (matchString_unitPattern p.unit).mpr (Or.inr (Or.inl h))
  unfold validate at hv
  by_cases h1 : p.label = ""
  · simp [h1] at hv
  · by_cases h2 : matchString labelPattern p.label = true
    · simp [h1, h2] at hv
    · simp [h1, h2, hm] at hv

theorem validate_eq_chain (p : PerformanceDataPoint) :
    validate p =
      (if p.label = "" then some errEmptyName
      else if '=' ∈ p.label.data ∨ squote ∈ p.label.data then some errInvalidNameChars
      else if (∃ d ∈ digits, d ∈ p.unit.data) ∨ ';' ∈ p.unit.data ∨ squote ∈ p.unit.data ∨
          dquote ∈ p.unit.data then some errInvalidUnitChars
      else if p.hasMin = true ∧ p.hasMax = true ∧ Float64.gt p.min p.max = true then
        some errMinExceedsMax
      else if p.hasMin = true ∧ Float64.lt p.value p.min = true then some errValueBelowMin
      else if p.hasMax = true ∧ Float64.gt p.value p.max = true then some errValueAboveMax
      else none) := by
  simp only [validate, matchString_labelPattern, matchString_unitPattern, Bool.and_eq_true,
    and_assoc]

theorem validate_of_valid_name_unit (p : PerformanceDataPoint) (hne : p.label ≠ "")
    (heq : '=' ∉ p.label.data) (hsq : squote ∉ p.label.data)
    (hdig : ∀ d ∈ digits, d ∉ p.unit.data) (hsemi : ';' ∉ p.unit.data)
    (husq : squote ∉ p.unit.data) (hudq : dquote ∉ p.unit.data) :
    validate p =
      (if p.hasMin = true ∧ p.hasMax = true ∧ Float64.gt p.min p.max = true then
        some errMinExceedsMax
      else if p.hasMin = true ∧ Float64.lt p.value p.min = true then some errValueBelowMin
      else if p.hasMax = true ∧ Float64.gt p.value p.max = true then some errValueAboveMax
      else none) := by
  have hn : ¬('=' ∈ p.label.data ∨ squote ∈ p.label.data) := fun h => h.elim heq hsq
  have hu : ¬((∃ d ∈ digits, d ∈ p.unit.data) ∨ ';' ∈ p.unit.data ∨ squote ∈ p.unit.data ∨
      dquote ∈ p.unit.data) := by
    rintro (⟨d, hd, h⟩ | h | h | h)
    · exact hdig d hd h
    · exact hsemi h
    · exact husq h
    · exact hudq h
  rw [validate_eq_chain, if_neg hne, if_neg hn, if_neg hu]

theorem Float64.lt_eq_false_of_eq (x y : Float64) (h : Float64.eq x y = true) :
    Float64.lt x y = false ∧ Float64.gt x y = false := by
  simp only [Float64.eq, Bool.and_eq_true, Bool.not_eq_true', decide_eq_true_eq] at h
  obtain ⟨⟨hx, hy⟩, hxy⟩ := h
  simp [Float64.lt, Float64.gt, hx, hy, hxy]

theorem Float64.ge_of_not_lt (x y : Float64) (hx : x.isNaN = false) (hy : y.isNaN = false)
    (h : Float64.lt x y = false) : Float64.ge x y = true := by
  simp only [Float64.lt, hx, hy, Bool.not_false, Bool.true_and, decide_eq_false_iff_not,
    not_lt] at h
  simp [Float64.ge, Float64.le, hx, hy, h]

theorem validate_none_bounds (p : PerformanceDataPoint) (hv : validate p = none) :
    ¬(p.hasMin = true ∧ p.hasMax = true ∧ Float64.gt p.min p.max = true) ∧
      ¬(p.hasMin = true ∧ Float64.lt p.value p.min = true) ∧
      ¬(p.hasMax = true ∧ Float64.gt p.value p.max = true) := by
  rw [validate_eq_chain] at hv
  split_ifs at hv with h1 h2 h3 h4 h5 h6
  exact ⟨h4, h5, h6⟩

theorem add_lookup_of_lookup (m : PerformanceData) (p : PerformanceDataPoint) (k : String)
    (q : PerformanceDataPoint) (h : m.lookup k = some q) : (m.add p).2.lookup k = some q := by
  unfold PerformanceData.add
  cases hv : validate p with
  | some e => exact h
  | none =>
    by_cases hk : (m.lookup (p.label ++ p.labelTag)).isSome = true
    · simpa [hk] using h
    · have hne : k ≠ p.label ++ p.labelTag := by
        intro hkk
        rw [← hkk, h] at hk
        exact hk rfl
      simp only [hk, Bool.false_eq_true, if_false]
      rw [Finmap.lookup_insert_of_ne m hne]
      exact h

theorem add_lookup_inv (m : PerformanceData) (p : PerformanceDataPoint) (k : String)
    (q : PerformanceDataPoint) (h : (m.add p).2.lookup k = some q) :
    m.lookup k = some q ∨ (validate p = none ∧ q = p ∧ k = p.label ++ p.labelTag) := by
  unfold PerformanceData.add at h
  cases hv : validate p with
  | some e =>
    rw [hv] at h
    exact Or.inl h
  | none =>
    rw [hv] at h
    by_cases hk : (m.lookup (p.label ++ p.labelTag)).isSome = true
    · simp only [hk, if_true] at h
      exact Or.inl h
    · simp only [hk, Bool.false_eq_true, if_false] at h
      by_cases hkk : k = p.label ++ p.labelTag
      · subst hkk
        rw [Finmap.lookup_insert] at h
        exact Or.inr ⟨rfl, (Option.some.inj h).symm, rfl⟩
      · rw [Finmap.lookup_insert_of_ne m hkk] at h
        exact Or.inl h

theorem foldl_add_stored (points : List PerformanceDataPoint) (m : PerformanceData)
    (hm : ∀ k q, m.lookup k = some q → validate q = none ∧ k = q.label ++ q.labelTag) :
    ∀ k q, (points.foldl (fun m p => (m.add p).2) m).lookup k = some q →
      validate q = none ∧ k = q.label ++ q.labelTag := by
  induction points generalizing m with
  | nil => exact hm
  | cons p ps ih =>
    apply ih
    intro k q h
    rcases add_lookup_inv m p k q h with h1 | ⟨hv, hq, hk⟩
    · exact hm k q h1
    · subst hq
      exact ⟨hv, hk⟩

theorem foldl_add_keeps (points : List PerformanceDataPoint) (m : PerformanceData) (k : String)
    (q : PerformanceDataPoint) (h : m.lookup k = some q) :
    (points.foldl (fun m p => (m.add p).2) m).lookup k = some q := by
  induction points generalizing m with
  | nil => exact h
  | cons p ps ih => exact ih _ (add_lookup_of_lookup m p k q h)

/-! ## validate -/

/-- C1: `validate` succeeds exactly when the name is non-empty, the name holds
neither `=` nor a single quote, the unit holds no digit, `;`, single or double
quote, and none of the three bound violations (min > max with both present,
value < min with min present, value > max with max present) occurs. -/
theorem validate_eq_none_iff (p : PerformanceDataPoint) :
    validate p = none ↔
      (p.label ≠ "" ∧
        ('=' ∉ p.label.data ∧ squote ∉ p.label.data) ∧
        ((∀ d ∈ digits, d ∉ p.unit.data) ∧ ';' ∉ p.unit.data ∧ squote ∉ p.unit.data ∧
          dquote ∉ p.unit.data) ∧
        ¬(p.hasMin = true ∧ p.hasMax = true ∧ Float64.gt p.min p.max = true) ∧
        ¬(p.hasMin = true ∧ Float64.lt p.value p.min = true) ∧
        ¬(p.hasMax = true ∧ Float64.gt p.value p.max = true)) := by
  have hl := matchString_labelPattern p.label
  have hu := matchString_unitPattern p.unit
  unfold validate
  by_cases h1 : p.label = ""
  · simp [h1]
  by_cases h2 : matchString labelPattern p.label = true
  · have := hl.mp h2
    simp only [h1, h2, if_true, if_false]
    constructor
    · intro h; cases h
    · rintro ⟨_, ⟨ha, hb⟩, _⟩
      rcases this with h | h
      · exact absurd h ha
      · exact absurd h hb
  by_cases h3 : matchString unitPattern p.unit = true
  · have := hu.mp h3
    simp only [h1, h2, h3, if_true, if_false]
    constructor
    · intro h; cases h
    · rintro ⟨_, _, ⟨ha, hb, hc, hd⟩, _⟩
      rcases this with ⟨d, hd1, hd2⟩ | h | h | h
      · exact absurd hd2 (ha d hd1)
      · exact absurd h hb
      · exact absurd h hc
      · exact absurd h hd
  have h2n : ¬('=' ∈ p.label.data ∨ squote ∈ p.label.data) := fun h => h2 (hl.mpr h)
  have h3n : ¬((∃ d ∈ digits, d ∈ p.unit.data) ∨ ';' ∈ p.unit.data ∨ squote ∈ p.unit.data ∨
      dquote ∈ p.unit.data) := fun h => h3 (hu.mpr h)
  have h2a : '=' ∉ p.label.data ∧ squote ∉ p.label.data := by
    exact ⟨fun h => h2n (Or.inl h), fun h => h2n (Or.inr h)⟩
  have h3a : (∀ d ∈ digits, d ∉ p.unit.data) ∧ ';' ∉ p.unit.data ∧ squote ∉ p.unit.data ∧
      dquote ∉ p.unit.data := by
    refine ⟨fun d hd h => h3n (Or.inl ⟨d, hd, h⟩), fun h => h3n (Or.inr (Or.inl h)),
      fun h => h3n (Or.inr (Or.inr (Or.inl h))), fun h => h3n (Or.inr (Or.inr (Or.inr h)))⟩
  simp only [h1, h2, h3, if_false, Bool.false_eq_true]
  constructor
  · intro h
    refine ⟨h1, h2a, h3a, ?_⟩
    revert h
    cases p.hasMin <;> cases p.hasMax <;> cases Float64.gt p.min p.max <;>
      cases Float64.lt p.value p.min <;> cases Float64.gt p.value p.max <;> simp
  · rintro ⟨_, _, _, h⟩
    revert h
    cases p.hasMin <;> cases p.hasMax <;> cases Float64.gt p.min p.max <;>
      cases Float64.lt p.value p.min <;> cases Float64.gt p.value p.max <;> simp

/-- C2: `validate` is fail-fast in the order EmptyName, InvalidNameChars,
InvalidUnitChars, MinExceedsMax, ValueBelowMin, ValueAboveMax: it returns the
error of the first violated check, the six errors are pairwise different, a
name with `=` and a unit with a digit give InvalidNameChars, and min > max
with value < min gives MinExceedsMax. -/
theorem validate_fail_fast (p : PerformanceDataPoint) :
    validate p =
        (if p.label = "" then some errEmptyName
        else if '=' ∈ p.label.data ∨ squote ∈ p.label.data then some errInvalidNameChars
        else if (∃ d ∈ digits, d ∈ p.unit.data) ∨ ';' ∈ p.unit.data ∨ squote ∈ p.unit.data ∨
            dquote ∈ p.unit.data then some errInvalidUnitChars
        else if p.hasMin = true ∧ p.hasMax = true ∧ Float64.gt p.min p.max = true then
          some errMinExceedsMax
        else if p.hasMin = true ∧ Float64.lt p.value p.min = true then some errValueBelowMin
        else if p.hasMax = true ∧ Float64.gt p.value p.max = true then some errValueAboveMax
        else none) ∧
      [errEmptyName, errInvalidNameChars, errInvalidUnitChars, errMinExceedsMax,
        errValueBelowMin, errValueAboveMax].Nodup ∧
      validate (NewPerformanceDataPoint "a=b" .ten "unit1") = some errInvalidNameChars ∧
      validate (SetMax (SetMin (NewPerformanceDataPoint "metric" .zero "") .ten) .five) =
        some errMinExceedsMax := by
  refine ⟨?_, by decide, by decide, by decide⟩
  simp only [validate, matchString_labelPattern, matchString_unitPattern, Bool.and_eq_true,
    and_assoc]

/-! ## add -/

theorem keys_insert_eq (m : PerformanceData) (k : String) (v : PerformanceDataPoint) :
    (m.insert k v).keys = insert k m.keys := by
  ext a
  simp only [Finmap.mem_keys, Finmap.mem_insert, Finset.mem_insert]

/-- C3: the points (`ab`, `c`) and (`a`, `bc`) are both valid and differ in
their (name, subLabel) pair, yet after the first is added to the empty map
the second is rejected as a duplicate: both are filed under the string `abc`. -/
theorem add_concatenated_key_collision :
    validate pointAbC = none ∧ validate pointABc = none ∧
      (pointAbC.label, pointAbC.labelTag) ≠ (pointABc.label, pointABc.labelTag) ∧
      (PerformanceData.add ∅ pointAbC).1 = none ∧
      (PerformanceData.add (PerformanceData.add ∅ pointAbC).2 pointABc).1 =
        some errDuplicateMetric ∧
      (PerformanceData.add (PerformanceData.add ∅ pointAbC).2 pointABc).2.lookup "abc" =
        some pointAbC := by
  decide

/-- C4: when `add` returns an error, the map after the call is the map before it. -/
theorem add_error_leaves_map (m : PerformanceData) (p : PerformanceDataPoint)
    (h : (m.add p).1 ≠ none) : (m.add p).2 = m := by
  unfold PerformanceData.add at h ⊢
  cases hv : validate p with
  | some e => simp
  | none =>
    by_cases hk : (m.lookup (p.label ++ p.labelTag)).isSome = true
    · simp [hk]
    · simp [hv, hk] at h

/-- Witness of C4: re-adding the point of the tests fails and keeps the map. -/
theorem add_error_leaves_map_witness :
    ((PerformanceData.add ∅ testPoint).2.add testPoint).1 ≠ none ∧
      ((PerformanceData.add ∅ testPoint).2.add testPoint).2 = (PerformanceData.add ∅ testPoint).2 :=
  ⟨by decide, add_error_leaves_map _ testPoint (by decide)⟩

/-- Success of `add` in terms of the string key: adding a valid point whose
key `label ++ labelTag` is absent succeeds; afterwards that key holds the
point itself, every other key holds what it held before, and the map has one
more key. -/
theorem add_stores_point (m : PerformanceData) (p : PerformanceDataPoint)
    (hv : validate p = none) (hk : m.lookup (p.label ++ p.labelTag) = none) :
    (m.add p).1 = none ∧
      (m.add p).2.lookup (p.label ++ p.labelTag) = some p ∧
      (∀ k, k ≠ p.label ++ p.labelTag → (m.add p).2.lookup k = m.lookup k) ∧
      (m.add p).2.keys.card = m.keys.card + 1 := by
  have hnot : p.label ++ p.labelTag ∉ m.keys := by
    rw [Finmap.mem_keys]
    exact Finmap.lookup_eq_none.mp hk
  simp only [PerformanceData.add, hv, hk, Option.isSome_none, Bool.false_eq_true, if_false]
  refine ⟨trivial, Finmap.lookup_insert m, fun k hne => Finmap.lookup_insert_of_ne m hne, ?_⟩
  rw [keys_insert_eq, Finset.card_insert_of_not_mem hnot]

/-- An instance of `add_stores_point`: adding `metric` with tag `tag` to the map
holding `metric`. -/
theorem add_stores_point_witness :
    ((PerformanceData.add ∅ testPoint).2.add (SetLabelTag testPoint "tag")).1 = none ∧
      ((PerformanceData.add ∅ testPoint).2.add (SetLabelTag testPoint "tag")).2.lookup "metrictag" =
        some (SetLabelTag testPoint "tag") ∧
      ((PerformanceData.add ∅ testPoint).2.add (SetLabelTag testPoint "tag")).2.lookup "metric" =
        some testPoint :=
  have h := add_stores_point (PerformanceData.add ∅ testPoint).2 (SetLabelTag testPoint "tag")
    (by decide) (by decide)
  ⟨h.1, h.2.1, (h.2.2.1 "metric" (by decide)).trans (by decide)⟩

/-- C5: the map holding only (`ab`, `c`) has no point with the pair
(`a`, `bc`), and (`a`, `bc`) passes `validate`; yet `add` returns the
duplicate error, the point is stored under no key, and the map keeps its
single key: the absent pair shares the string key `abc` with the stored one. -/
theorem add_rejects_absent_pair :
    validate pointABc = none ∧
      (∀ k q, (PerformanceData.add ∅ pointAbC).2.lookup k = some q →
        (q.label, q.labelTag) ≠ (pointABc.label, pointABc.labelTag)) ∧
      ((PerformanceData.add ∅ pointAbC).2.add pointABc).1 = some errDuplicateMetric ∧
      (∀ k, ((PerformanceData.add ∅ pointAbC).2.add pointABc).2.lookup k ≠ some pointABc) ∧
      (PerformanceData.add ∅ pointAbC).2.keys.card = 1 ∧
      ((PerformanceData.add ∅ pointAbC).2.add pointABc).2.keys.card = 1 := by
  have hstored : ∀ k q, (PerformanceData.add ∅ pointAbC).2.lookup k = some q → q = pointAbC := by
    intro k q h
    rcases add_lookup_inv ∅ pointAbC k q h with h0 | ⟨_, hq, _⟩
    · rw [Finmap.lookup_empty] at h0
      cases h0
    · exact hq
  refine ⟨by decide, fun k q h => ?_, by decide, fun k h => ?_, by decide, by decide⟩
  · rw [hstored k q h]
    decide
  · rcases add_lookup_inv _ pointABc k pointABc h with h0 | ⟨_, _, hk⟩
    · exact absurd (hstored k pointABc h0) (by decide)
    · rw [hk] at h
      exact absurd h (by decide)

/-- C6: `add` validates first. A validation error comes back wrapped in the
context of `add`, whatever the map holds; a point that validates gets either
no error or the duplicate error, which is neither a wrapped error nor one of
the six validation errors. -/
theorem add_validates_first (m : PerformanceData) (p : PerformanceDataPoint) :
    (∀ e, validate p = some e → (m.add p).1 = some (GoError.wrap e notValidContext)) ∧
      (validate p = none → (m.add p).1 = none ∨ (m.add p).1 = some errDuplicateMetric) ∧
      (∀ e msg, GoError.wrap e msg ≠ errDuplicateMetric) ∧
      errDuplicateMetric ∉ [errEmptyName, errInvalidNameChars, errInvalidUnitChars,
        errMinExceedsMax, errValueBelowMin, errValueAboveMax] := by
  refine ⟨fun e he => ?_, fun hv => ?_, fun e msg h => GoError.noConfusion h, by decide⟩
  · simp [PerformanceData.add, he]
  · unfold PerformanceData.add
    by_cases hk : (m.lookup (p.label ++ p.labelTag)).isSome = true
    · simp [hv, hk]
    · simp [hv, hk]

/-- Witness of C6: a point with a bad unit whose key `metric` is already in the map. -/
theorem add_validates_first_witness :
    ((PerformanceData.add ∅ testPoint).2.lookup "metric").isSome = true ∧
      ((PerformanceData.add ∅ testPoint).2.add (NewPerformanceDataPoint "metric" .ten "unit1")).1 =
        some (GoError.wrap errInvalidUnitChars notValidContext) :=
  ⟨by decide, (add_validates_first _ (NewPerformanceDataPoint "metric" .ten "unit1")).1 _
    (by decide)⟩

/-! ## outputString -/

/-- C7: without the JSON label the output is the quoted name (followed by `_`
and the tag when the tag is non-empty), `=`, the formatted value, the unit and
the four slots warn, crit, min, max, each introduced by `;` and empty when its
flag is unset. With a formatter that prints 10, 40, 50, 0, 60 as Go does, the
point of the tests renders as `'metric'=10s;40;50;0;60`. -/
theorem outputString_flat (fmt : Float64 → String) (p : PerformanceDataPoint) :
    outputString fmt p false =
        "'" ++ p.label ++ (if p.labelTag ≠ "" then "_" ++ p.labelTag else "") ++ "'=" ++
          fmt p.value ++ p.unit ++ ";" ++
          (if p.hasWarn = true then fmt p.warn else "") ++ ";" ++
          (if p.hasCrit = true then fmt p.crit else "") ++ ";" ++
          (if p.hasMin = true then fmt p.min else "") ++ ";" ++
          (if p.hasMax = true then fmt p.max else "") ∧
      (fmt .ten = "10" → fmt .forty = "40" → fmt .fifty = "50" → fmt .zero = "0" →
        fmt .sixty = "60" → outputString fmt testPoint false = "'metric'=10s;40;50;0;60") := by
  have hq : ∀ x : String, "'" ++ ("=" ++ x) = "'=" ++ x := fun x => by
    rw [← String.append_assoc]
    rfl
  constructor
  · unfold outputString
    by_cases ht : p.labelTag = "" <;> cases p.hasWarn <;> cases p.hasCrit <;>
      cases p.hasMin <;> cases p.hasMax <;>
      simp [ht, String.append_assoc, hq]
  · intro h10 h40 h50 h0 h60
    simp only [outputString, testPoint, SetMax, SetMin, SetCrit, SetWarn,
      NewPerformanceDataPoint, h10, h40, h50, h0, h60]
    decide

/-- Witness of C7: the formatter `fmtSmallNat` prints the five numbers as required. -/
theorem outputString_flat_witness :
    outputString fmtSmallNat testPoint false = "'metric'=10s;40;50;0;60" :=
  (outputString_flat fmtSmallNat testPoint).2 (by decide) (by decide) (by decide) (by decide)
    (by decide)

/-- C8: with the JSON label the output starts with `'{"metric":"<name>"}'`
when the tag is empty and with `'{"metric":"<name>","label":"<tag>"}'`
otherwise; what follows the label is the same text, from `=` to the max slot,
that follows the quoted flat label in the output without the JSON label. -/
theorem outputString_json (fmt : Float64 → String) (p : PerformanceDataPoint) :
    ∃ suffix : String,
      suffix = "=" ++ fmt p.value ++ p.unit ++ ";" ++
          (if p.hasWarn = true then fmt p.warn else "") ++ ";" ++
          (if p.hasCrit = true then fmt p.crit else "") ++ ";" ++
          (if p.hasMin = true then fmt p.min else "") ++ ";" ++
          (if p.hasMax = true then fmt p.max else "") ∧
      outputString fmt p true =
        (if p.labelTag = "" then "'\x7b\"metric\":\"" ++ p.label ++ "\"\x7d'"
          else "'\x7b\"metric\":\"" ++ p.label ++ "\",\"label\":\"" ++ p.labelTag ++ "\"\x7d'") ++
          suffix ∧
      outputString fmt p false =
        (if p.labelTag = "" then "'" ++ p.label ++ "'"
          else "'" ++ p.label ++ "_" ++ p.labelTag ++ "'") ++ suffix := by
  have h1 : ∀ x : String, "\"" ++ ("\x7d'" ++ x) = "\"\x7d'" ++ x := fun x => by
    rw [← String.append_assoc]
    rfl
  have h2 : ∀ x : String, "\"" ++ (",\"label\":\"" ++ x) = "\",\"label\":\"" ++ x := fun x => by
    rw [← String.append_assoc]
    rfl
  refine ⟨_, rfl, ?_, ?_⟩
  · unfold outputString
    by_cases ht : p.labelTag = "" <;> cases p.hasWarn <;> cases p.hasCrit <;>
      cases p.hasMin <;> cases p.hasMax <;>
      simp [ht, String.append_assoc, h1, h2]
  · unfold outputString
    by_cases ht : p.labelTag = "" <;> cases p.hasWarn <;> cases p.hasCrit <;>
      cases p.hasMin <;> cases p.hasMax <;>
      simp [ht, String.append_assoc]

/-- C9: for `metric` with tag `tag` the code emits the JSON label
`'{"metric":"metric","label":"tag"}'`, with the key `metric` once; the output
does not begin with `'{"metric":"metric","metric":"tag"}'`, the doubled key
that the claim states and the test expects. -/
theorem outputString_json_key_counterexample :
    outputString fmtSmallNat (SetLabelTag testPoint "tag") true =
        "'\x7b\"metric\":\"metric\",\"label\":\"tag\"\x7d'=10s;40;50;0;60" ∧
      List.isPrefixOf "'\x7b\"metric\":\"metric\",\"metric\":\"tag\"\x7d'".data
        (outputString fmtSmallNat (SetLabelTag testPoint "tag") true).data = false := by
  decide

/-- The JSON label of a point with a non-empty tag uses the key `metric` for
the name and the key `label` for the tag: the output begins with
`'{"metric":"<name>","label":"<tag>"}'=`. -/
theorem outputString_json_label_key (fmt : Float64 → String) (p : PerformanceDataPoint)
    (ht : p.labelTag ≠ "") :
    ∃ rest : String,
      outputString fmt p true =
        "'\x7b\"metric\":\"" ++ p.label ++ "\",\"label\":\"" ++ p.labelTag ++ "\"\x7d'" ++ "=" ++
          rest := by
  have h1 : ∀ x : String, "\"" ++ ("\x7d'" ++ x) = "\"\x7d'" ++ x := fun x => by
    rw [← String.append_assoc]
    rfl
  have h2 : ∀ x : String, "\"" ++ (",\"label\":\"" ++ x) = "\",\"label\":\"" ++ x := fun x => by
    rw [← String.append_assoc]
    rfl
  have h3 : ∀ x : String, "\"\x7d'" ++ ("=" ++ x) = "\"\x7d'=" ++ x := fun x => by
    rw [← String.append_assoc]
    rfl
  refine ⟨fmt p.value ++ p.unit ++ ";" ++ (if p.hasWarn = true then fmt p.warn else "") ++ ";" ++
    (if p.hasCrit = true then fmt p.crit else "") ++ ";" ++
    (if p.hasMin = true then fmt p.min else "") ++ ";" ++
    (if p.hasMax = true then fmt p.max else ""), ?_⟩
  unfold outputString
  cases p.hasWarn <;> cases p.hasCrit <;> cases p.hasMin <;> cases p.hasMax <;>
    simp [ht, String.append_assoc, h1, h2, h3]

/-- An instance of `outputString_json_label_key`: `metric` with tag `tag`. -/
theorem outputString_json_label_key_witness :
    (SetLabelTag testPoint "tag").labelTag ≠ "" ∧
      ∃ rest : String,
        outputString fmtSmallNat (SetLabelTag testPoint "tag") true =
          "'\x7b\"metric\":\"" ++ (SetLabelTag testPoint "tag").label ++ "\",\"label\":\"" ++
            (SetLabelTag testPoint "tag").labelTag ++ "\"\x7d'" ++ "=" ++ rest :=
  ⟨by decide, outputString_json_label_key fmtSmallNat (SetLabelTag testPoint "tag") (by decide)⟩

/-- C10, as claimed, fails: the name `a;b` passes `validate`, the formatter
emits no `;`, and the output holds five `;` with or without the JSON label. -/
theorem outputString_semicolon_counterexample :
    validate (NewPerformanceDataPoint "a;b" .ten "s") = none ∧
      (∀ x, ';' ∉ (fmtSmallNat x).data) ∧
      outputString fmtSmallNat (NewPerformanceDataPoint "a;b" .ten "s") false = "'a;b'=10s;;;;" ∧
      countChar ';' (outputString fmtSmallNat (NewPerformanceDataPoint "a;b" .ten "s") false) = 5 ∧
      countChar ';' (outputString fmtSmallNat (NewPerformanceDataPoint "a;b" .ten "s") true) = 5 :=
  ⟨by decide, fmtSmallNat_no_semicolon, by decide, by decide, by decide⟩

/-- C10, amended: for a point that passes `validate` and a formatter that
emits no `;`, the output holds four `;` besides those of the name and the
tag, with or without the JSON label; it holds exactly four when neither the
name nor the tag has one. -/
theorem outputString_semicolon_count (fmt : Float64 → String) (p : PerformanceDataPoint)
    (jsonLabel : Bool) (hfmt : ∀ x, ';' ∉ (fmt x).data) (hv : validate p = none) :
    countChar ';' (outputString fmt p jsonLabel) =
        4 + countChar ';' p.label + countChar ';' p.labelTag ∧
      (';' ∉ p.label.data → ';' ∉ p.labelTag.data →
        countChar ';' (outputString fmt p jsonLabel) = 4) := by
  have hf : ∀ x, (fmt x).data.count ';' = 0 := fun x => List.count_eq_zero_of_not_mem (hfmt x)
  have hu : p.unit.data.count ';' = 0 :=
    List.count_eq_zero_of_not_mem (validate_unit_no_semicolon p hv)
  have e0 : "".data.count ';' = 0 := by decide
  have e1 : "'\x7b\"metric\":\"".data.count ';' = 0 := by decide
  have e2 : "\"".data.count ';' = 0 := by decide
  have e3 : ",\"label\":\"".data.count ';' = 0 := by decide
  have e4 : "\x7d'".data.count ';' = 0 := by decide
  have e5 : "'".data.count ';' = 0 := by decide
  have e6 : "_".data.count ';' = 0 := by decide
  have e7 : "=".data.count ';' = 0 := by decide
  have e8 : ";".data.count ';' = 1 := by decide
  have key : countChar ';' (outputString fmt p jsonLabel) =
      4 + countChar ';' p.label + countChar ';' p.labelTag := by
    unfold outputString countChar
    by_cases ht : p.labelTag = ""
    · cases jsonLabel <;> cases p.hasWarn <;> cases p.hasCrit <;> cases p.hasMin <;>
        cases p.hasMax <;>
        simp only [ht, ne_eq, not_true_eq_false, if_false, if_true, Bool.false_eq_true,
          String.data_append, List.count_append, hf, hu, e0, e1, e2, e3, e4, e5, e6, e7, e8] <;>
        omega
    · cases jsonLabel <;> cases p.hasWarn <;> cases p.hasCrit <;> cases p.hasMin <;>
        cases p.hasMax <;>
        simp only [ht, ne_eq, not_false_eq_true, if_false, if_true, Bool.false_eq_true,
          String.data_append, List.count_append, hf, hu, e0, e1, e2, e3, e4, e5, e6, e7, e8] <;>
        omega
  refine ⟨key, fun hl hg => ?_⟩
  rw [key]
  unfold countChar
  rw [List.count_eq_zero_of_not_mem hl, List.count_eq_zero_of_not_mem hg]

/-- Witness of C10 amended: the point of the tests with tag `tag`. -/
theorem outputString_semicolon_count_witness :
    validate (SetLabelTag testPoint "tag") = none ∧
      countChar ';' (outputString fmtSmallNat (SetLabelTag testPoint "tag") true) = 4 :=
  ⟨by decide, (outputString_semicolon_count fmtSmallNat (SetLabelTag testPoint "tag") true
    fmtSmallNat_no_semicolon (by decide)).2 (by decide) (by decide)⟩

/-! ## validate, check by check -/

/-- Bounds of an accepted point none of whose value, min and max is a NaN:
min <= max when both are present, value >= min and value <= max. -/
theorem validate_bounds_of_not_nan (p : PerformanceDataPoint) (hv : validate p = none)
    (hval : p.value.isNaN = false) (hmn : p.min.isNaN = false) (hmx : p.max.isNaN = false) :
    (p.hasMin = true → p.hasMax = true → Float64.le p.min p.max = true) ∧
      (p.hasMin = true → Float64.ge p.value p.min = true) ∧
      (p.hasMax = true → Float64.le p.value p.max = true) := by
  obtain ⟨h4, h5, h6⟩ := validate_none_bounds p hv
  refine ⟨fun h1 h2 => ?_, fun h1 => ?_, fun h2 => ?_⟩
  · have : Float64.lt p.max p.min = false := by
      cases h : Float64.lt p.max p.min
      · rfl
      · exact absurd ⟨h1, h2, h⟩ h4
    exact Float64.ge_of_not_lt p.max p.min hmx hmn this
  · have : Float64.lt p.value p.min = false := by
      cases h : Float64.lt p.value p.min
      · rfl
      · exact absurd ⟨h1, h⟩ h5
    exact Float64.ge_of_not_lt p.value p.min hval hmn this
  · have : Float64.lt p.max p.value = false := by
      cases h : Float64.lt p.max p.value
      · rfl
      · exact absurd ⟨h2, h⟩ h6
    exact Float64.ge_of_not_lt p.max p.value hmx hval this

/-- C11: `validate` accepts the point with a NaN value and min 0, for which
value >= min is false, and the point with value 0, a NaN min and max 5, for
which min <= max is false. -/
theorem validate_accepts_nan :
    validate nanValuePoint = none ∧ nanValuePoint.hasMin = true ∧
      Float64.ge nanValuePoint.value nanValuePoint.min = false ∧
      validate nanMinPoint = none ∧ nanMinPoint.hasMin = true ∧ nanMinPoint.hasMax = true ∧
      Float64.le nanMinPoint.min nanMinPoint.max = false := by
  decide

/-- C12: `validate` returns InvalidNameChars exactly when the name holds `=`
or a single quote, at whatever position and whatever the other fields are;
`metric=` and `'metric'` are rejected with it. -/
theorem validate_invalid_name_chars (p : PerformanceDataPoint) :
    (validate p = some errInvalidNameChars ↔ ('=' ∈ p.label.data ∨ squote ∈ p.label.data)) ∧
      (∀ (pre post : List Char) (c : Char), (c = '=' ∨ c = squote) →
        p.label.data = pre ++ c :: post → validate p = some errInvalidNameChars) ∧
      validate (NewPerformanceDataPoint "metric=" .ten "") = some errInvalidNameChars ∧
      validate (NewPerformanceDataPoint "'metric'" .ten "") = some errInvalidNameChars := by
  have hiff : validate p = some errInvalidNameChars ↔
      ('=' ∈ p.label.data ∨ squote ∈ p.label.data) := by
    rw [validate_eq_chain]
    by_cases h1 : p.label = ""
    · simp [h1, errEmptyName, errInvalidNameChars]
    · by_cases h2 : '=' ∈ p.label.data ∨ squote ∈ p.label.data
      · simp [h1, h2]
      · rw [if_neg h1, if_neg h2]
        simp only [h2, iff_false]
        split_ifs <;> simp [errInvalidNameChars, errInvalidUnitChars, errMinExceedsMax,
          errValueBelowMin, errValueAboveMax]
  refine ⟨hiff, fun pre post c hc hd => hiff.mpr ?_, by decide, by decide⟩
  have hmem : c ∈ p.label.data := by
    rw [hd]
    simp
  rcases hc with hc | hc
  · exact Or.inl (hc ▸ hmem)
  · exact Or.inr (hc ▸ hmem)

/-- Witness of C12: the name `a=b`, with `=` in the middle. -/
theorem validate_invalid_name_chars_witness :
    validate (NewPerformanceDataPoint "a=b" .ten "unit1") = some errInvalidNameChars :=
  (validate_invalid_name_chars (NewPerformanceDataPoint "a=b" .ten "unit1")).2.1
    ['a'] ['b'] '=' (Or.inl rfl) (by decide)

/-- C16: `validate` returns EmptyName exactly when the name is the empty string. -/
theorem validate_empty_name_iff (p : PerformanceDataPoint) :
    validate p = some errEmptyName ↔ p.label = "" := by
  rw [validate_eq_chain]
  by_cases h1 : p.label = ""
  · simp [h1]
  · rw [if_neg h1]
    simp only [h1, iff_false]
    split_ifs <;> simp [errEmptyName, errInvalidNameChars, errInvalidUnitChars,
      errMinExceedsMax, errValueBelowMin, errValueAboveMax]

/-- C13: for a valid name, a unit holding a digit, `;`, a single or a double
quote is rejected with InvalidUnitChars whatever the value and the bounds
are; no point is rejected with InvalidUnitChars unless its unit holds one of
them. The units `unit1`, `unit;`, `unit'`, `unit"` are rejected with it, and
the empty unit, `%`, `s` and `°C` are accepted. -/
theorem validate_invalid_unit_chars (p : PerformanceDataPoint) :
    (p.label ≠ "" → '=' ∉ p.label.data → squote ∉ p.label.data →
        ((∃ d ∈ digits, d ∈ p.unit.data) ∨ ';' ∈ p.unit.data ∨ squote ∈ p.unit.data ∨
          dquote ∈ p.unit.data) →
        validate p = some errInvalidUnitChars) ∧
      (validate p = some errInvalidUnitChars →
        ((∃ d ∈ digits, d ∈ p.unit.data) ∨ ';' ∈ p.unit.data ∨ squote ∈ p.unit.data ∨
          dquote ∈ p.unit.data)) ∧
      (["unit1", "unit;", "unit'", "unit\""].map fun u =>
          validate (NewPerformanceDataPoint "metric" .ten u)) =
        [some errInvalidUnitChars, some errInvalidUnitChars, some errInvalidUnitChars,
          some errInvalidUnitChars] ∧
      (["", "%", "s", "°C"].map fun u => validate (NewPerformanceDataPoint "metric" .ten u)) =
        [none, none, none, none] := by
  refine ⟨fun h1 h2 h3 hu => ?_, fun hv => ?_, by decide, by decide⟩
  · have hn : ¬('=' ∈ p.label.data ∨ squote ∈ p.label.data) := fun h => h.elim h2 h3
    rw [validate_eq_chain, if_neg h1, if_neg hn, if_pos hu]
  · rw [validate_eq_chain] at hv
    by_contra hu
    rw [if_neg hu] at hv
    split_ifs at hv <;>
      simp [errEmptyName, errInvalidNameChars, errInvalidUnitChars, errMinExceedsMax,
        errValueBelowMin, errValueAboveMax] at hv

/-- Witness of C13: the unit `k;m` with min 10 above max 5. -/
theorem validate_invalid_unit_chars_witness :
    validate (SetMax (SetMin (NewPerformanceDataPoint "metric" .ten "k;m") .ten) .five) =
      some errInvalidUnitChars :=
  (validate_invalid_unit_chars
    (SetMax (SetMin (NewPerformanceDataPoint "metric" .ten "k;m") .ten) .five)).1
    (by decide) (by decide) (by decide) (Or.inr (Or.inl (by decide)))

/-- C14: for a valid name and unit, when min and max are both present and
min > max, `validate` returns MinExceedsMax whatever the value is. -/
theorem validate_min_exceeds_max (p : PerformanceDataPoint) (hne : p.label ≠ "")
    (heq : '=' ∉ p.label.data) (hsq : squote ∉ p.label.data)
    (hdig : ∀ d ∈ digits, d ∉ p.unit.data) (hsemi : ';' ∉ p.unit.data)
    (husq : squote ∉ p.unit.data) (hudq : dquote ∉ p.unit.data)
    (hmin : p.hasMin = true) (hmax : p.hasMax = true)
    (hgt : Float64.gt p.min p.max = true) :
    validate p = some errMinExceedsMax := by
  rw [validate_of_valid_name_unit p hne heq hsq hdig hsemi husq hudq, if_pos ⟨hmin, hmax, hgt⟩]

/-- Witness of C14: value 10, min 10, max 5. -/
theorem validate_min_exceeds_max_witness :
    validate (SetMax (SetMin (NewPerformanceDataPoint "metric" .ten "") .ten) .five) =
      some errMinExceedsMax :=
  validate_min_exceeds_max (SetMax (SetMin (NewPerformanceDataPoint "metric" .ten "") .ten) .five)
    (by decide) (by decide) (by decide) (by decide) (by decide) (by decide) (by decide)
    (by decide) (by decide) (by decide)

/-- C15: for a valid name and unit and a single bound, `validate` returns
ValueBelowMin exactly when only min is present and value < min,
ValueAboveMax exactly when only max is present and value > max, and accepts
the point otherwise; a value equal to the bound is accepted. Value 10 with
min 50 gives ValueBelowMin and value 10 with max 5 gives ValueAboveMax. -/
theorem validate_single_bound (p : PerformanceDataPoint) (hne : p.label ≠ "")
    (heq : '=' ∉ p.label.data) (hsq : squote ∉ p.label.data)
    (hdig : ∀ d ∈ digits, d ∉ p.unit.data) (hsemi : ';' ∉ p.unit.data)
    (husq : squote ∉ p.unit.data) (hudq : dquote ∉ p.unit.data) :
    (p.hasMin = true → p.hasMax = false →
        validate p = if Float64.lt p.value p.min = true then some errValueBelowMin else none) ∧
      (p.hasMin = false → p.hasMax = true →
        validate p = if Float64.gt p.value p.max = true then some errValueAboveMax else none) ∧
      (p.hasMin = true → p.hasMax = false → Float64.eq p.value p.min = true →
        validate p = none) ∧
      (p.hasMin = false → p.hasMax = true → Float64.eq p.value p.max = true →
        validate p = none) ∧
      validate (SetMin (NewPerformanceDataPoint "metric" .ten "") .fifty) =
        some errValueBelowMin ∧
      validate (SetMax (NewPerformanceDataPoint "metric" .ten "") .five) =
        some errValueAboveMax := by
  have hc := validate_of_valid_name_unit p hne heq hsq hdig hsemi husq hudq
  refine ⟨fun h1 h2 => ?_, fun h1 h2 => ?_, fun h1 h2 he => ?_, fun h1 h2 he => ?_,
    by decide, by decide⟩
  · rw [hc]
    simp [h1, h2]
  · rw [hc]
    simp [h1, h2]
  · rw [hc]
    simp [h1, h2, (Float64.lt_eq_false_of_eq _ _ he).1]
  · rw [hc]
    simp [h1, h2, (Float64.lt_eq_false_of_eq _ _ he).2]

/-- Witness of C15: value 10 with min 10 is accepted. -/
theorem validate_single_bound_witness :
    validate (SetMin (NewPerformanceDataPoint "metric" .ten "s") .ten) = none :=
  (validate_single_bound (SetMin (NewPerformanceDataPoint "metric" .ten "s") .ten)
    (by decide) (by decide) (by decide) (by decide) (by decide) (by decide) (by decide)).2.2.1
    (by decide) (by decide) (by decide)

/-! ## Construction and setters -/

/-- C17: `NewPerformanceDataPoint` stores the three arguments, leaves the tag
empty and the four flags unset, so the output without the JSON label is the
quoted name, `=`, the formatted value, the unit and `;;;;`; with a formatter
that prints 10 as Go does, (`metric`, 10, `s`) renders as `'metric'=10s;;;;`. -/
theorem newPoint_fields_and_output (fmt : Float64 → String) (label : String) (value : Float64)
    (unit : String) :
    (NewPerformanceDataPoint label value unit).label = label ∧
      (NewPerformanceDataPoint label value unit).value = value ∧
      (NewPerformanceDataPoint label value unit).unit = unit ∧
      (NewPerformanceDataPoint label value unit).labelTag = "" ∧
      (NewPerformanceDataPoint label value unit).hasWarn = false ∧
      (NewPerformanceDataPoint label value unit).hasCrit = false ∧
      (NewPerformanceDataPoint label value unit).hasMin = false ∧
      (NewPerformanceDataPoint label value unit).hasMax = false ∧
      outputString fmt (NewPerformanceDataPoint label value unit) false =
        "'" ++ label ++ "'=" ++ fmt value ++ unit ++ ";;;;" ∧
      (fmt .ten = "10" →
        outputString fmt (NewPerformanceDataPoint "metric" .ten "s") false = "'metric'=10s;;;;") := by
  have hq : ∀ x : String, "'" ++ ("=" ++ x) = "'=" ++ x := fun x => by
    rw [← String.append_assoc]
    rfl
  refine ⟨rfl, rfl, rfl, rfl, rfl, rfl, rfl, rfl, ?_, fun h10 => ?_⟩
  · simp [outputString, NewPerformanceDataPoint, String.append_assoc, hq]
  · simp [outputString, NewPerformanceDataPoint, h10]

/-- Witness of C17: the formatter `fmtSmallNat` prints 10 as `10`. -/
theorem newPoint_fields_and_output_witness :
    outputString fmtSmallNat (NewPerformanceDataPoint "metric" .ten "s") false =
      "'metric'=10s;;;;" :=
  (newPoint_fields_and_output fmtSmallNat "metric" .ten "s").2.2.2.2.2.2.2.2.2 (by decide)

/-- C18: each setter changes only its own field. `SetMin`, `SetMax`,
`SetWarn`, `SetCrit` store the scalar and set its presence flag, `SetLabelTag`
stores the tag, and every other field keeps its value; `SetMin` with 0 marks
min as present. -/
theorem setters_frame (p : PerformanceDataPoint) (v : Float64) (t : String) :
    ((SetMin p v).min = v ∧
        (SetMin p v).hasMin = true ∧
        (SetMin p v).label = p.label ∧
        (SetMin p v).value = p.value ∧
        (SetMin p v).unit = p.unit ∧
        (SetMin p v).warn = p.warn ∧
        (SetMin p v).crit = p.crit ∧
        (SetMin p v).max = p.max ∧
        (SetMin p v).labelTag = p.labelTag ∧
        (SetMin p v).hasWarn = p.hasWarn ∧
        (SetMin p v).hasCrit = p.hasCrit ∧
        (SetMin p v).hasMax = p.hasMax) ∧
      ((SetMax p v).max = v ∧
        (SetMax p v).hasMax = true ∧
        (SetMax p v).label = p.label ∧
        (SetMax p v).value = p.value ∧
        (SetMax p v).unit = p.unit ∧
        (SetMax p v).warn = p.warn ∧
        (SetMax p v).crit = p.crit ∧
        (SetMax p v).min = p.min ∧
        (SetMax p v).labelTag = p.labelTag ∧
        (SetMax p v).hasWarn = p.hasWarn ∧
        (SetMax p v).hasCrit = p.hasCrit ∧
        (SetMax p v).hasMin = p.hasMin) ∧
      ((SetWarn p v).warn = v ∧
        (SetWarn p v).hasWarn = true ∧
        (SetWarn p v).label = p.label ∧
        (SetWarn p v).value = p.value ∧
        (SetWarn p v).unit = p.unit ∧
        (SetWarn p v).crit = p.crit ∧
        (SetWarn p v).min = p.min ∧
        (SetWarn p v).max = p.max ∧
        (SetWarn p v).labelTag = p.labelTag ∧
        (SetWarn p v).hasCrit = p.hasCrit ∧
        (SetWarn p v).hasMin = p.hasMin ∧
        (SetWarn p v).hasMax = p.hasMax) ∧
      ((SetCrit p v).crit = v ∧
        (SetCrit p v).hasCrit = true ∧
        (SetCrit p v).label = p.label ∧
        (SetCrit p v).value = p.value ∧
        (SetCrit p v).unit = p.unit ∧
        (SetCrit p v).warn = p.warn ∧
        (SetCrit p v).min = p.min ∧
        (SetCrit p v).max = p.max ∧
        (SetCrit p v).labelTag = p.labelTag ∧
        (SetCrit p v).hasWarn = p.hasWarn ∧
        (SetCrit p v).hasMin = p.hasMin ∧
        (SetCrit p v).hasMax = p.hasMax) ∧
      ((SetLabelTag p t).labelTag = t ∧
        (SetLabelTag p t).label = p.label ∧
        (SetLabelTag p t).value = p.value ∧
        (SetLabelTag p t).unit = p.unit ∧
        (SetLabelTag p t).warn = p.warn ∧
        (SetLabelTag p t).crit = p.crit ∧
        (SetLabelTag p t).min = p.min ∧
        (SetLabelTag p t).max = p.max ∧
        (SetLabelTag p t).hasWarn = p.hasWarn ∧
        (SetLabelTag p t).hasCrit = p.hasCrit ∧
        (SetLabelTag p t).hasMin = p.hasMin ∧
        (SetLabelTag p t).hasMax = p.hasMax) ∧
      ((SetMin p .zero).min = .zero ∧ (SetMin p .zero).hasMin = true) := by
  refine ⟨⟨?_, ?_⟩, ⟨?_, ?_⟩, ⟨?_, ?_⟩, ⟨?_, ?_⟩, ⟨?_, ?_⟩, ?_, ?_⟩ <;>
    simp [SetMin, SetMax, SetWarn, SetCrit, SetLabelTag]

/-- C19: setting a field twice keeps the last value, and two different
setters commute. -/
theorem setters_overwrite_and_commute (p : PerformanceDataPoint) (a b : Float64)
    (s t : String) :
    SetMin (SetMin p a) b = SetMin p b ∧
      SetMax (SetMax p a) b = SetMax p b ∧
      SetWarn (SetWarn p a) b = SetWarn p b ∧
      SetCrit (SetCrit p a) b = SetCrit p b ∧
      SetLabelTag (SetLabelTag p s) t = SetLabelTag p t ∧
      SetMin (SetMax p b) a = SetMax (SetMin p a) b ∧
      SetMin (SetWarn p b) a = SetWarn (SetMin p a) b ∧
      SetMin (SetCrit p b) a = SetCrit (SetMin p a) b ∧
      SetMin (SetLabelTag p t) a = SetLabelTag (SetMin p a) t ∧
      SetMax (SetWarn p b) a = SetWarn (SetMax p a) b ∧
      SetMax (SetCrit p b) a = SetCrit (SetMax p a) b ∧
      SetMax (SetLabelTag p t) a = SetLabelTag (SetMax p a) t ∧
      SetWarn (SetCrit p b) a = SetCrit (SetWarn p a) b ∧
      SetWarn (SetLabelTag p t) a = SetLabelTag (SetWarn p a) t ∧
      SetCrit (SetLabelTag p t) a = SetLabelTag (SetCrit p a) t := by
  refine ⟨rfl, rfl, rfl, rfl, rfl, rfl, rfl, rfl, rfl, rfl, rfl, rfl, rfl, rfl, rfl⟩

/-! ## Maps built by add -/

/-- C20: in the map reached from the empty map by any sequence of `add`
calls, every stored point passes `validate` and sits under the key
`label ++ labelTag` of its own fields; an entry of that map is still there,
unchanged, after one more `add` and after any further sequence of them. -/
theorem addAll_invariant (points : List PerformanceDataPoint) :
    (∀ k q, (addAll points).lookup k = some q →
        validate q = none ∧ k = q.label ++ q.labelTag) ∧
      (∀ p k q, (addAll points).lookup k = some q →
        ((addAll points).add p).2.lookup k = some q) ∧
      (∀ more k q, (addAll points).lookup k = some q →
        (addAll (points ++ more)).lookup k = some q) ∧
      (∀ p, addAll (points ++ [p]) = ((addAll points).add p).2) := by
  refine ⟨?_, fun p k q h => add_lookup_of_lookup _ p k q h, fun more k q h => ?_, fun p => ?_⟩
  · apply foldl_add_stored
    intro k q h
    rw [Finmap.lookup_empty] at h
    cases h
  · unfold addAll
    rw [List.foldl_append]
    exact foldl_add_keeps more _ k q h
  · unfold addAll
    rw [List.foldl_append]
    rfl

/-- Witness of C20: four calls, of which the second fails validation and the
third is a duplicate. -/
theorem addAll_invariant_witness :
    (addAll [testPoint, NewPerformanceDataPoint "" .ten "", testPoint,
        SetLabelTag testPoint "tag"]).lookup "metrictag" = some (SetLabelTag testPoint "tag") ∧
      validate (SetLabelTag testPoint "tag") = none ∧
      "metrictag" = (SetLabelTag testPoint "tag").label ++ (SetLabelTag testPoint "tag").labelTag :=
  ⟨by decide, (addAll_invariant [testPoint, NewPerformanceDataPoint "" .ten "", testPoint,
    SetLabelTag testPoint "tag"]).1 "metrictag" (SetLabelTag testPoint "tag") (by decide)⟩

end MonitoringPlugin
